import Mathlib

/-!
Shallow embedding of the Minecraft texture-pack optimizer
(`src/api/optimize.js`) and proofs about its per-file
classification-and-recompression pipeline.

Byte buffers are modelled as `List Nat` and JavaScript strings as Lean
`String`, with ASCII case folding (every pattern in the source is ASCII).
The external raster library (`sharp`) and the zip serializer are modelled
as oracle functions supplied as parameters; `Except` results stand for
promise rejections / thrown exceptions.
-/

/-- Lowercase one character the way JavaScript `toLowerCase` acts on the
ASCII range (every pattern tested by the source is ASCII). -/
def lowerChar (c : Char) : Char :=
  if 'A' ≤ c ∧ c ≤ 'Z' then Char.ofNat (c.toNat + 32) else c

/-- ASCII lowercase of a string (`String.prototype.toLowerCase` restricted
to the ASCII range). -/
def lowerStr (s : String) : String :=
  String.mk (s.data.map lowerChar)

/-- Check that the first list is an initial run of the second. -/
def leadsWith : List Char → List Char → Bool
  | [], _ => true
  | _ :: _, [] => false
  | p :: ps, c :: cs => p == c && leadsWith ps cs

/-- Check that `pat` occurs contiguously somewhere inside `s`
(JavaScript `String.prototype.includes`). -/
def occursIn : List Char → List Char → Bool
  | [], pat => pat.isEmpty
  | c :: rest, pat => leadsWith pat (c :: rest) || occursIn rest pat

/-- JavaScript `String.prototype.includes` on Lean strings. -/
def strContains (s pat : String) : Bool :=
  occursIn s.data pat.data

/-- JavaScript `String.prototype.endsWith` (case sensitive). -/
def strEndsWith (s pat : String) : Bool :=
  leadsWith pat.data.reverse s.data.reverse

/-- Helper from the source: `/\.(png|jpg|jpeg)$/i.test(filename)`. -/
def isImageFile (filename : String) : Bool :=
  strEndsWith (lowerStr filename) ".png" || strEndsWith (lowerStr filename) ".jpg" ||
    strEndsWith (lowerStr filename) ".jpeg"

/-- Helper from the source: critical files that must never be modified.
The patterns are the eight case-insensitive regexes of `isCriticalFile`:
two anchored whole-name matches, five suffix matches, and one substring
match on `font/`. -/
def isCriticalFile (filename : String) : Bool :=
  lowerStr filename == "pack.mcmeta" || lowerStr filename == "pack.png" ||
    strEndsWith (lowerStr filename) ".mcmeta" || strEndsWith (lowerStr filename) ".json" ||
    strEndsWith (lowerStr filename) ".bbmodel" || strEndsWith (lowerStr filename) ".txt" ||
    strEndsWith (lowerStr filename) ".properties" || strContains (lowerStr filename) "font/"

/-- Helper from the source: `/\.(ogg|wav|mp3)$/i.test(filename)`. -/
def isSoundFile (filename : String) : Bool :=
  strEndsWith (lowerStr filename) ".ogg" || strEndsWith (lowerStr filename) ".wav" ||
    strEndsWith (lowerStr filename) ".mp3"

/-- Category a non-directory archive entry is classified into. -/
inductive Category where
  | critical
  | sound
  | image
  | other

/-- Classification of a non-directory entry name, following the handler's
fixed branch order: critical first, then sound, then image, then other.
It is a plain total function, so totality and determinism are immediate. -/
def classify (filename : String) : Category :=
  if isCriticalFile filename = true then Category.critical
  else if isSoundFile filename = true then Category.sound
  else if isImageFile filename = true then Category.image
  else Category.other

/-- Folder-priority heuristic from the source (`getFolderPriority`):
first-match-wins over substring checks on the lower-cased path. -/
def getFolderPriority (filename : String) : String :=
  let path := lowerStr filename
  if strContains path "modelengine" = true then "high"
  else if (strContains path "ninja" || strContains path "samurai" ||
      strContains path "warrior" || strContains path "mage" ||
      strContains path "assassin" || strContains path "paladin" ||
      strContains path "reaper" || strContains path "dragon" ||
      strContains path "awakened") = true then "high"
  else if (strContains path "items" || strContains path "weapons") = true then "medium"
  else if strContains path "assets/minecraft/textures/" = true then "low"
  else "medium"

/-- Resolution cap derivation from the source (`getOptimalResolution`).
The `filename` argument is present in the source but unused. -/
def getOptimalResolution (filename : String) (baseResolution : ℚ) (priority : String) : ℚ :=
  if priority = "high" then min baseResolution 256
  else if priority = "medium" then baseResolution
  else if priority = "low" then min (baseResolution * 1.5) 512
  else baseResolution

/-- Claim C4: classification into critical / sound / image / other is a
pure, total, deterministic function of the name (immediate, since
`classify` is a Lean function), and the categories are checked with fixed
precedence: a critical name is always classified critical, a non-critical
sound name sound, a non-critical non-sound image name image, and anything
else other. -/
theorem classify_precedence (filename : String) :
    (isCriticalFile filename = true → classify filename = Category.critical) ∧
    (isCriticalFile filename = false → isSoundFile filename = true →
      classify filename = Category.sound) ∧
    (isCriticalFile filename = false → isSoundFile filename = false →
      isImageFile filename = true → classify filename = Category.image) ∧
    (isCriticalFile filename = false → isSoundFile filename = false →
      isImageFile filename = false → classify filename = Category.other) :=
  ⟨fun h1 => by simp [classify, h1],
   fun h1 h2 => by simp [classify, h1, h2],
   fun h1 h2 h3 => by simp [classify, h1, h2, h3],
   fun h1 h2 h3 => by simp [classify, h1, h2, h3]⟩

/-- Witness for C4: `pack.mcmeta` matches a critical pattern and is
classified critical. -/
theorem classify_precedence_witness :
    isCriticalFile "pack.mcmeta" = true ∧ classify "pack.mcmeta" = Category.critical :=
  ⟨by decide, (classify_precedence "pack.mcmeta").1 (by decide)⟩

/-- Claim C5: resolution caps per tier: high yields `min R 256`, medium
leaves `R` unchanged, low yields `min (R * 1.5) 512`; in particular high
with base 512 yields 256 and low with base 256 yields 384. -/
theorem resolution_by_priority (filename : String) (r : ℚ) :
    getOptimalResolution filename r "high" = min r 256 ∧
    getOptimalResolution filename r "medium" = r ∧
    getOptimalResolution filename r "low" = min (r * 1.5) 512 ∧
    getOptimalResolution filename 512 "high" = 256 ∧
    getOptimalResolution filename 256 "low" = 384 := by
  refine ⟨?_, ?_, ?_, ?_, ?_⟩ <;> simp [getOptimalResolution] <;> norm_num [min_def]

/-- Helper: a list is an initial run of itself extended by anything. -/
lemma leadsWith_refl_append (l t : List Char) : leadsWith l (l ++ t) = true := by
  induction l with
  | nil => rfl
  | cons a l ih => simp [leadsWith, List.cons_append, ih]

/-- Helper: an initial-run match inside `t ++ u` that fits within `t`
is already a match inside `t`. -/
lemma leadsWith_of_append (pat t u : List Char) (hlen : pat.length ≤ t.length)
    (h : leadsWith pat (t ++ u) = true) : leadsWith pat t = true := by
  induction pat generalizing t with
  | nil => rfl
  | cons p ps ih =>
    cases t with
    | nil => simp at hlen
    | cons b ts =>
      rw [List.cons_append, leadsWith, Bool.and_eq_true] at h
      rw [leadsWith, Bool.and_eq_true]
      exact ⟨h.1, ih ts (by simpa using hlen) h.2⟩

/-- JavaScript `String.prototype.replace` with a plain-string pattern,
on character lists: only the first occurrence is replaced, and the list
is returned unchanged when the pattern does not occur. -/
def replaceFirstAux (pat repl : List Char) : List Char → List Char
  | [] => []
  | c :: rest =>
    if leadsWith pat (c :: rest) = true then repl ++ (c :: rest).drop pat.length
    else c :: replaceFirstAux pat repl rest

/-- Helper: when the pattern does not occur, the replacement is the
identity. -/
lemma replaceFirstAux_of_not_occurs (pat repl : List Char) :
    ∀ s : List Char, occursIn s pat = false → replaceFirstAux pat repl s = s := by
  intro s
  induction s with
  | nil => intro _; rfl
  | cons c rest ih =>
    intro h
    rw [occursIn] at h
    rcases Bool.or_eq_false_iff.mp h with ⟨h1, h2⟩
    rw [replaceFirstAux, if_neg (by simp [h1]), ih h2]

/-- Helper: when the first occurrence of the pattern starts right after
`pre` (no occurrence fits inside the earlier prefix), replacement splices
`repl` at that point and leaves everything else untouched. -/
lemma replaceFirstAux_append (pat repl post : List Char) (hpat : pat ≠ []) :
    ∀ pre : List Char, occursIn (pre ++ pat).dropLast pat = false →
      replaceFirstAux pat repl (pre ++ pat ++ post) = pre ++ repl ++ post := by
  intro pre
  induction pre with
  | nil =>
    intro _
    cases pat with
    | nil => exact absurd rfl hpat
    | cons p ps =>
      have hc : leadsWith (p :: ps) ((p :: ps) ++ post) = true := leadsWith_refl_append _ _
      simp only [List.nil_append, List.cons_append] at hc ⊢
      rw [replaceFirstAux, if_pos hc]
      congr 1
      simp [List.drop_left]
  | cons a pre ih =>
    intro h
    have hne : pre ++ pat ≠ [] := by
      cases pat with
      | nil => exact absurd rfl hpat
      | cons p ps => simp
    have hdl : ((a :: pre) ++ pat).dropLast = a :: (pre ++ pat).dropLast := by
      cases hpp : pre ++ pat with
      | nil => exact absurd hpp hne
      | cons b l => simp [List.cons_append, hpp]
    rw [hdl, occursIn] at h
    rcases Bool.or_eq_false_iff.mp h with ⟨hlead, h2⟩
    have hlen : pat.length ≤ (a :: (pre ++ pat).dropLast).length := by
      have h1 : 1 ≤ pat.length := by
        cases pat with
        | nil => exact absurd rfl hpat
        | cons p ps => simp
      simp only [List.length_cons, List.length_dropLast, List.length_append]
      omega
    have hsplit : (pre ++ pat) ++ post
        = (pre ++ pat).dropLast ++ ((pre ++ pat).getLast hne :: post) := by
      conv_lhs => rw [← List.dropLast_append_getLast hne]
      simp
    have heq : a :: ((pre ++ pat) ++ post)
        = (a :: (pre ++ pat).dropLast) ++ ((pre ++ pat).getLast hne :: post) := by
      rw [hsplit]; simp
    have hleadfull : leadsWith pat (a :: (pre ++ (pat ++ post))) = false := by
      by_contra hcc
      rw [Bool.not_eq_false, ← List.append_assoc, heq] at hcc
      have hres := leadsWith_of_append pat _ _ hlen hcc
      rw [hres] at hlead
      simp at hlead
    show replaceFirstAux pat repl ((a :: pre) ++ pat ++ post) = (a :: pre) ++ repl ++ post
    rw [show (a :: pre) ++ pat ++ post = a :: ((pre ++ pat) ++ post) by simp]
    rw [replaceFirstAux, if_neg (by simp [hleadfull]), ih h2]
    simp

/-- JavaScript `String.prototype.replace(stringPattern, replacement)`:
replaces only the first occurrence. -/
def jsReplaceOnce (s pat repl : String) : String :=
  String.mk (replaceFirstAux pat.data repl.data s.data)

/-- Output filename computation from the handler (lines 334-340):
`originalName.replace(".zip", "-optimized-" + finalSizeMB + "mb.zip")`. -/
def outputName (originalName finalSizeMB : String) : String :=
  jsReplaceOnce originalName ".zip" ("-optimized-" ++ finalSizeMB ++ "mb.zip")

/-- Counterexample to claim C9: for the upload name `pack.zip.zip` the
code rewrites the FIRST `.zip`, not the trailing one, so a non-trailing
occurrence of `.zip` is not left untouched. -/
theorem outputName_counterexample :
    outputName "pack.zip.zip" "1.00" = "pack-optimized-1.00mb.zip.zip" ∧
    outputName "pack.zip.zip" "1.00" ≠ "pack.zip-optimized-1.00mb.zip" := by
  constructor
  · rfl
  · decide

/-- Claim C9 (amended): the download filename is derived by replacing the
FIRST occurrence of `.zip` in the original name with
`-optimized-<sizeMB>mb.zip` (when the earliest occurrence is the splice
point, everything around it is untouched), and a name in which `.zip`
does not occur at all is left unchanged. -/
theorem outputName_first_occurrence (pre post name mb : String)
    (h : occursIn ((pre ++ ".zip").data.dropLast) (".zip" : String).data = false) :
    outputName (pre ++ ".zip" ++ post) mb
      = pre ++ ("-optimized-" ++ mb ++ "mb.zip") ++ post ∧
    (occursIn name.data (".zip" : String).data = false → outputName name mb = name) := by
  constructor
  · apply String.ext
    show (replaceFirstAux (".zip" : String).data
        ("-optimized-" ++ mb ++ "mb.zip").data (pre ++ ".zip" ++ post).data)
      = (pre ++ ("-optimized-" ++ mb ++ "mb.zip") ++ post).data
    rw [String.data_append, String.data_append, String.data_append, String.data_append]
    exact replaceFirstAux_append _ _ _ (by decide) pre.data
      (by rw [← String.data_append]; exact h)
  · intro hn
    apply String.ext
    show (replaceFirstAux (".zip" : String).data
        ("-optimized-" ++ mb ++ "mb.zip").data name.data) = name.data
    exact replaceFirstAux_of_not_occurs _ _ _ hn

/-- Witness for the amended C9: `pack.zip` becomes
`pack-optimized-1.00mb.zip`. -/
theorem outputName_first_occurrence_witness :
    occursIn ((("pack" : String) ++ ".zip").data.dropLast) (".zip" : String).data = false ∧
    outputName (("pack" : String) ++ ".zip" ++ "") "1.00"
      = ("pack" : String) ++ ("-optimized-" ++ "1.00" ++ "mb.zip") ++ "" :=
  ⟨by decide, (outputName_first_occurrence "pack" "" "x" "1.00" (by decide)).1⟩

/-- Image metadata as reported by the raster library; fields may be
absent (`undefined`). -/
structure Metadata where
  width : Option Nat
  height : Option Nat

/-- Options accepted by `optimizeImage` (with the source's defaults
`{targetResolution: 256, quality: 85, format: "png", aggressiveMode: false}`
represented by `defaultOptions` below). -/
structure ImgOptions where
  targetResolution : ℚ
  quality : ℤ
  format : String
  aggressiveMode : Bool

/-- Encoding step selected by `optimizeImage`. The fixed constants of
each branch (compressionLevel 9; palette with 128 colors, effort 10 and
progressive scan for aggressive PNG; adaptive filtering and progressive
scan for balanced PNG; effort 6 and alphaQuality 95 for WEBP) are carried
by the constructor choice. -/
inductive EncodeOp where
  | pngAggressive (quality : ℤ)
  | pngBalanced (quality : ℤ)
  | webpEncode (quality : ℤ)
  | passthrough

/-- Everything `optimizeImage` feeds into the raster pipeline: an
optional resize (width, height) and an encoding operation. -/
structure PipelineCfg where
  resize : Option (ℚ × ℚ)
  encode : EncodeOp

/-- Oracle model of the external raster library `sharp`: a metadata probe
and a pipeline runner, each of which may fail (`Except.error` stands for
a rejected promise / thrown exception). -/
structure SharpLib where
  metadataOf : List Nat → Except String Metadata
  runPipeline : List Nat → PipelineCfg → Except String (List Nat)

/-- JavaScript `Math.round`: round half toward positive infinity. -/
def jsRound (q : ℚ) : ℤ := ⌊q + 1 / 2⌋

/-- Resize computation of `optimizeImage`, reached when either dimension
is at least 512: square images scale both sides to `min target width`;
otherwise the longer side is capped and the other follows the aspect
ratio, rounded. -/
def computeResize (w h : Nat) (targetResolution : ℚ) : ℚ × ℚ :=
  let aspect : ℚ := (w : ℚ) / (h : ℚ)
  if aspect = 1 then
    (min targetResolution (w : ℚ), min targetResolution (w : ℚ))
  else if h < w then
    let newW := min targetResolution (w : ℚ)
    (newW, (jsRound (newW / aspect) : ℚ))
  else
    let newH := min targetResolution (h : ℚ)
    ((jsRound (newH * aspect) : ℚ), newH)

/-- Encoding operation chosen from format, quality and aggressive flag
(the compression-settings block of `optimizeImage`). -/
def encodeOpOf (format : String) (quality : ℤ) (aggressiveMode : Bool) : EncodeOp :=
  if format = "png" then
    if aggressiveMode = true then EncodeOp.pngAggressive (quality - 5)
    else EncodeOp.pngBalanced quality
  else if format = "webp" then EncodeOp.webpEncode quality
  else EncodeOp.passthrough

/-- Body of `optimizeImage`'s try block. An empty buffer throws; a failed
metadata probe propagates; missing or zero (falsy) width or height
returns the buffer; both dimensions at most 32 returns the buffer;
otherwise the pipeline runs and the encoded bytes are kept only when
strictly smaller than the input. -/
def optimizeImageBody (lib : SharpLib) (buffer : List Nat) (options : ImgOptions) :
    Except String (List Nat) :=
  if buffer.length = 0 then Except.error "Empty image buffer"
  else
    match lib.metadataOf buffer with
    | Except.error e => Except.error e
    | Except.ok md =>
      match md.width, md.height with
      | some w, some h =>
        if w = 0 ∨ h = 0 then Except.ok buffer
        else if w ≤ 32 ∧ h ≤ 32 then Except.ok buffer
        else
          match lib.runPipeline buffer
              ⟨if 512 ≤ w ∨ 512 ≤ h then some (computeResize w h options.targetResolution)
                else none,
               encodeOpOf options.format options.quality options.aggressiveMode⟩ with
          | Except.error e => Except.error e
          | Except.ok optimized =>
            Except.ok (if optimized.length < buffer.length then optimized else buffer)
      | _, _ => Except.ok buffer

/-- The `optimizeImage` helper: any exception inside the body is caught
and the original buffer is returned. The `filename` argument is
diagnostic only, as in the source. -/
def optimizeImage (lib : SharpLib) (buffer : List Nat) (filename : String)
    (options : ImgOptions) : List Nat :=
  match optimizeImageBody lib buffer options with
  | Except.ok r => r
  | Except.error _ => buffer

/-- Helper: a successful `optimizeImageBody` returns either the original
buffer or something strictly smaller. -/
lemma optimizeImageBody_ok (lib : SharpLib) (buffer : List Nat) (options : ImgOptions)
    (r : List Nat) (h : optimizeImageBody lib buffer options = Except.ok r) :
    r = buffer ∨ r.length < buffer.length := by
  unfold optimizeImageBody at h
  split at h
  · cases h
  · split at h
    · cases h
    · split at h
      · split at h
        · exact Or.inl (Except.ok.inj h).symm
        · split at h
          · exact Or.inl (Except.ok.inj h).symm
          · split at h
            · cases h
            · rw [← Except.ok.inj h]
              split
              · rename_i hlt
                exact Or.inr hlt
              · exact Or.inl rfl
      · exact Or.inl (Except.ok.inj h).symm

/-- Claim C1: for every sharp oracle, input buffer and options,
`optimizeImage` never returns more bytes than it was given; the encoded
result is returned only when strictly smaller, and otherwise (empty
buffer, unreadable metadata, any exception, or an encoding that did not
shrink) the original bytes come back unchanged. -/
theorem optimizeImage_never_increases (lib : SharpLib) (buffer : List Nat)
    (filename : String) (options : ImgOptions) :
    (optimizeImage lib buffer filename options).length ≤ buffer.length ∧
    (optimizeImage lib buffer filename options = buffer ∨
      (optimizeImage lib buffer filename options).length < buffer.length) := by
  have key : optimizeImage lib buffer filename options = buffer ∨
      (optimizeImage lib buffer filename options).length < buffer.length := by
    unfold optimizeImage
    rcases hb : optimizeImageBody lib buffer options with e | r
    · exact Or.inl rfl
    · rcases optimizeImageBody_ok lib buffer options r hb with h | h
      · exact Or.inl h
      · exact Or.inr h
  rcases key with h | h
  · exact ⟨(congrArg List.length h).le, Or.inl h⟩
  · exact ⟨le_of_lt h, Or.inr h⟩

/-- Claim C6: when the metadata probe succeeds and reports both
dimensions at most 32, `optimizeImage` returns its input byte-identical
(no resize, no re-encode). -/
theorem small_image_passthrough (lib : SharpLib) (buffer : List Nat) (filename : String)
    (options : ImgOptions) (w h : Nat)
    (hm : lib.metadataOf buffer = Except.ok ⟨some w, some h⟩)
    (hw : w ≤ 32) (hh : h ≤ 32) :
    optimizeImage lib buffer filename options = buffer := by
  unfold optimizeImage optimizeImageBody
  by_cases hz : buffer.length = 0
  · simp [hz]
  · rw [if_neg hz, hm]
    by_cases h0 : w = 0 ∨ h = 0
    · simp [h0]
    · simp [h0, hw, hh]

/-- Sharp oracle whose metadata probe always reports a 16 by 16 image. -/
def smallLib : SharpLib :=
  { metadataOf := fun _ => Except.ok ⟨some 16, some 16⟩
  , runPipeline := fun _ _ => Except.ok [] }

/-- Default options of `optimizeImage` in the source. -/
def defaultOptions : ImgOptions :=
  { targetResolution := 256, quality := 85, format := "png", aggressiveMode := false }

/-- Witness for C6: a 16 by 16 image is passed through unchanged. -/
theorem small_image_passthrough_witness :
    smallLib.metadataOf [1, 2, 3] = Except.ok ⟨some 16, some 16⟩ ∧ (16 : Nat) ≤ 32 ∧
    optimizeImage smallLib [1, 2, 3] "stone.png" defaultOptions = [1, 2, 3] :=
  ⟨rfl, by decide,
   small_image_passthrough smallLib [1, 2, 3] "stone.png" defaultOptions 16 16 rfl
     (by decide) (by decide)⟩

/-- Options parsed from the multipart fields by the handler. -/
structure HandlerOpts where
  targetResolution : ℚ
  quality : ℤ
  format : String
  aggressiveMode : Bool
  deviceMode : String

/-- Effective options the handler passes to `optimizeImage` for one image
entry (lines 272-277): potato device mode caps the resolution at 256,
lowers the quality by 10 and forces aggressive mode on. -/
def effectiveOptions (opts : HandlerOpts) (optimalRes : ℚ) : ImgOptions :=
  { targetResolution := if opts.deviceMode = "potato" then min optimalRes 256 else optimalRes
  , quality := if opts.deviceMode = "potato" then opts.quality - 10 else opts.quality
  , format := opts.format
  , aggressiveMode := opts.aggressiveMode || decide (opts.deviceMode = "potato") }

/-- Claim C3: in potato device mode the recompressor receives
aggressiveMode true regardless of the caller's flag, quality lowered by
10, and a target resolution equal to the minimum of the priority-derived
resolution and 256, hence at most 256. -/
theorem potato_mode_override (opts : HandlerOpts) (filename : String)
    (hp : opts.deviceMode = "potato") :
    (effectiveOptions opts (getOptimalResolution filename opts.targetResolution
        (getFolderPriority filename))).aggressiveMode = true ∧
    (effectiveOptions opts (getOptimalResolution filename opts.targetResolution
        (getFolderPriority filename))).quality = opts.quality - 10 ∧
    (effectiveOptions opts (getOptimalResolution filename opts.targetResolution
        (getFolderPriority filename))).targetResolution
      = min (getOptimalResolution filename opts.targetResolution
        (getFolderPriority filename)) 256 ∧
    (effectiveOptions opts (getOptimalResolution filename opts.targetResolution
        (getFolderPriority filename))).targetResolution ≤ 256 := by
  refine ⟨?_, ?_, ?_, ?_⟩ <;> simp [effectiveOptions, hp]

/-- Handler options with potato device mode, used as witness input. -/
def potatoOpts : HandlerOpts :=
  { targetResolution := 512, quality := 85, format := "png"
  , aggressiveMode := false, deviceMode := "potato" }

/-- Witness for C3 at concrete potato-mode options. -/
theorem potato_mode_override_witness :
    potatoOpts.deviceMode = "potato" ∧
    ((effectiveOptions potatoOpts (getOptimalResolution "a.png" potatoOpts.targetResolution
        (getFolderPriority "a.png"))).aggressiveMode = true ∧
     (effectiveOptions potatoOpts (getOptimalResolution "a.png" potatoOpts.targetResolution
        (getFolderPriority "a.png"))).quality = potatoOpts.quality - 10 ∧
     (effectiveOptions potatoOpts (getOptimalResolution "a.png" potatoOpts.targetResolution
        (getFolderPriority "a.png"))).targetResolution
       = min (getOptimalResolution "a.png" potatoOpts.targetResolution
        (getFolderPriority "a.png")) 256 ∧
     (effectiveOptions potatoOpts (getOptimalResolution "a.png" potatoOpts.targetResolution
        (getFolderPriority "a.png"))).targetResolution ≤ 256) :=
  ⟨rfl, potato_mode_override potatoOpts "a.png" rfl⟩

/-- Per-bucket statistics: a file count and cumulative bytes saved. -/
structure CatStat where
  files : Nat
  saved : ℤ

/-- The fixed named category buckets of the statistics object. -/
structure Categories where
  modelengine : CatStat
  items : CatStat
  vanilla : CatStat
  sounds : CatStat

/-- Category bucket attribution for a successfully optimized image
(handler lines 291-300): first-match substring checks on the original,
case-sensitive, path. -/
def bucketUpdate (filename : String) (saved : ℤ) (c : Categories) : Categories :=
  if strContains filename "modelengine" = true then
    { c with modelengine := ⟨c.modelengine.files + 1, c.modelengine.saved + saved⟩ }
  else if (strContains filename "items" || strContains filename "weapons") = true then
    { c with items := ⟨c.items.files + 1, c.items.saved + saved⟩ }
  else if strContains filename "assets/minecraft" = true then
    { c with vanilla := ⟨c.vanilla.files + 1, c.vanilla.saved + saved⟩ }
  else c

/-- Claim C10: priority derivation lower-cases the path while bucket
attribution is case-sensitive: a path containing `modelengine` only in
mixed or upper case still gets priority high, but its savings are
attributed to no named bucket. -/
theorem bucket_case_sensitivity (filename : String)
    (h1 : strContains (lowerStr filename) "modelengine" = true)
    (h2 : strContains filename "modelengine" = false)
    (h3 : strContains filename "items" = false)
    (h4 : strContains filename "weapons" = false)
    (h5 : strContains filename "assets/minecraft" = false) :
    getFolderPriority filename = "high" ∧
    ∀ (saved : ℤ) (c : Categories), bucketUpdate filename saved c = c := by
  constructor
  · simp [getFolderPriority, h1]
  · intro saved c
    simp [bucketUpdate, h2, h3, h4, h5]

/-- Witness for C10 at the path `ModelEngine/mob.png`. -/
theorem bucket_case_sensitivity_witness :
    strContains (lowerStr "ModelEngine/mob.png") "modelengine" = true ∧
    strContains "ModelEngine/mob.png" "modelengine" = false ∧
    strContains "ModelEngine/mob.png" "items" = false ∧
    strContains "ModelEngine/mob.png" "weapons" = false ∧
    strContains "ModelEngine/mob.png" "assets/minecraft" = false ∧
    (getFolderPriority "ModelEngine/mob.png" = "high" ∧
     ∀ (saved : ℤ) (c : Categories), bucketUpdate "ModelEngine/mob.png" saved c = c) :=
  ⟨by decide, by decide, by decide, by decide, by decide,
   bucket_case_sensitivity "ModelEngine/mob.png"
     (by decide) (by decide) (by decide) (by decide) (by decide)⟩

/-- One zip entry of the uploaded archive: its stored path, the directory
flag, and its raw bytes (empty for directories). -/
structure Entry where
  name : String
  dir : Bool
  data : List Nat
  deriving DecidableEq

/-- One record written to the output archive: `folder` mirrors
`optimizedZip.folder(name)`, `file` mirrors `optimizedZip.file(name, data)`. -/
inductive OutEntry where
  | folder (name : String)
  | file (name : String) (data : List Nat)
  deriving DecidableEq

/-- The statistics object mutated by the per-entry loop. -/
structure Stats where
  totalFiles : Nat
  imageFiles : Nat
  soundFiles : Nat
  optimizedImages : Nat
  skippedFiles : Nat
  criticalFiles : Nat
  hdTexturesFound : Nat
  originalSize : Nat
  optimizedSize : Nat
  categories : Categories

/-- The all-zero statistics the handler starts from. -/
def Stats.start : Stats :=
  { totalFiles := 0, imageFiles := 0, soundFiles := 0, optimizedImages := 0
  , skippedFiles := 0, criticalFiles := 0, hdTexturesFound := 0
  , originalSize := 0, optimizedSize := 0
  , categories := ⟨⟨0, 0⟩, ⟨0, 0⟩, ⟨0, 0⟩, ⟨0, 0⟩⟩ }

/-- State threaded through the per-entry loop: the statistics accumulator
and the output archive built so far. -/
structure LoopState where
  stats : Stats
  out : List OutEntry

/-- JavaScript comparison `x >= n` where `x` may be `undefined`
(`undefined >= n` is false). -/
def geOpt (o : Option Nat) (n : Nat) : Bool :=
  match o with
  | some m => decide (n ≤ m)
  | none => false

/-- Extension rename applied when the output format differs from png
(`filename.replace(/\.png$/i, "." + format)`). -/
def replacePngExt (filename format : String) : String :=
  if strEndsWith (lowerStr filename) ".png" = true then
    String.mk (filename.data.take (filename.data.length - 4)) ++ "." ++ format
  else filename

/-- The throwing part of the per-image block (handler lines 260-277):
priority and resolution are derived, the metadata probe may throw, the
HD-texture test is taken, and `optimizeImage` runs with the
device-mode-adjusted options. Returns the bytes to write and the
HD flag. -/
def imageTry (lib : SharpLib) (opts : HandlerOpts) (filename : String)
    (fileData : List Nat) : Except String (List Nat × Bool) :=
  match lib.metadataOf fileData with
  | Except.error e => Except.error e
  | Except.ok md =>
    Except.ok
      (optimizeImage lib fileData filename
        (effectiveOptions opts
          (getOptimalResolution filename opts.targetResolution (getFolderPriority filename))),
       geOpt md.width 512 || geOpt md.height 512)

/-- One iteration of the handler's per-entry loop (lines 228-313):
directories are recreated; critical, sound and non-image files are copied
through; image entries run the try block, whose failure falls back to the
original bytes and bumps the skip counter. -/
def processEntry (lib : SharpLib) (opts : HandlerOpts) (st : LoopState) (e : Entry) :
    LoopState :=
  if e.dir = true then { st with out := st.out ++ [OutEntry.folder e.name] }
  else
    let stats0 := { st.stats with
        totalFiles := st.stats.totalFiles + 1
        originalSize := st.stats.originalSize + e.data.length }
    if isCriticalFile e.name = true then
      { stats := { stats0 with
            optimizedSize := stats0.optimizedSize + e.data.length
            criticalFiles := stats0.criticalFiles + 1 }
        out := st.out ++ [OutEntry.file e.name e.data] }
    else if isSoundFile e.name = true then
      { stats := { stats0 with
            optimizedSize := stats0.optimizedSize + e.data.length
            soundFiles := stats0.soundFiles + 1
            categories := { stats0.categories with
              sounds := ⟨stats0.categories.sounds.files + 1,
                         stats0.categories.sounds.saved⟩ } }
        out := st.out ++ [OutEntry.file e.name e.data] }
    else if isImageFile e.name = true then
      match imageTry lib opts e.name e.data with
      | Except.ok (optimized, hd) =>
        { stats := { stats0 with
              imageFiles := stats0.imageFiles + 1
              hdTexturesFound := stats0.hdTexturesFound + (if hd = true then 1 else 0)
              optimizedSize := stats0.optimizedSize + optimized.length
              optimizedImages := stats0.optimizedImages + 1
              categories := bucketUpdate e.name
                ((e.data.length : ℤ) - (optimized.length : ℤ)) stats0.categories }
          out := st.out ++ [OutEntry.file
            (if opts.format ≠ "png" ∧ strEndsWith e.name ".png" = true
             then replacePngExt e.name opts.format else e.name) optimized] }
      | Except.error _ =>
        { stats := { stats0 with
              imageFiles := stats0.imageFiles + 1
              optimizedSize := stats0.optimizedSize + e.data.length
              skippedFiles := stats0.skippedFiles + 1 }
          out := st.out ++ [OutEntry.file e.name e.data] }
    else
      { stats := { stats0 with optimizedSize := stats0.optimizedSize + e.data.length }
        out := st.out ++ [OutEntry.file e.name e.data] }

/-- The whole per-entry loop, strictly sequential over the archive's
entry order. -/
def processEntries (lib : SharpLib) (opts : HandlerOpts) : LoopState → List Entry → LoopState
  | st, [] => st
  | st, e :: rest => processEntries lib opts (processEntry lib opts st e) rest

/-- The loop started from the handler's initial state (fresh statistics,
empty output archive). -/
def processAll (lib : SharpLib) (opts : HandlerOpts) (entries : List Entry) : LoopState :=
  processEntries lib opts { stats := Stats.start, out := [] } entries

/-- Claim C2: when the image block raises, the exception is caught, the
entry's original bytes are written unmodified, `skippedFiles` goes up by
exactly 1, and the loop simply continues with the remaining entries. -/
theorem image_error_isolated (lib : SharpLib) (opts : HandlerOpts) (st : LoopState)
    (e : Entry) (rest : List Entry) (msg : String)
    (hdir : e.dir = false) (hcrit : isCriticalFile e.name = false)
    (hsound : isSoundFile e.name = false) (himg : isImageFile e.name = true)
    (herr : imageTry lib opts e.name e.data = Except.error msg) :
    (processEntry lib opts st e).out = st.out ++ [OutEntry.file e.name e.data] ∧
    (processEntry lib opts st e).stats.skippedFiles = st.stats.skippedFiles + 1 ∧
    processEntries lib opts st (e :: rest)
      = processEntries lib opts (processEntry lib opts st e) rest := by
  refine ⟨?_, ?_, rfl⟩ <;> simp [processEntry, hdir, hcrit, hsound, himg, herr]

/-- Sharp oracle that always throws, exercising the failure path. -/
def failLib : SharpLib :=
  { metadataOf := fun _ => Except.error "boom"
  , runPipeline := fun _ _ => Except.error "boom" }

/-- Handler options with balanced device mode, used as witness input. -/
def balancedOpts : HandlerOpts :=
  { targetResolution := 256, quality := 85, format := "png"
  , aggressiveMode := false, deviceMode := "balanced" }

/-- Image entry used as witness input. -/
def texEntry : Entry := ⟨"tex.png", false, [7, 7]⟩

/-- Empty loop state the handler starts from. -/
def startState : LoopState := ⟨Stats.start, []⟩

/-- Witness for C2: a metadata exception on `tex.png` is isolated. -/
theorem image_error_isolated_witness :
    texEntry.dir = false ∧ isCriticalFile texEntry.name = false ∧
    isSoundFile texEntry.name = false ∧ isImageFile texEntry.name = true ∧
    imageTry failLib balancedOpts texEntry.name texEntry.data = Except.error "boom" ∧
    ((processEntry failLib balancedOpts startState texEntry).out
       = startState.out ++ [OutEntry.file texEntry.name texEntry.data] ∧
     (processEntry failLib balancedOpts startState texEntry).stats.skippedFiles
       = startState.stats.skippedFiles + 1 ∧
     processEntries failLib balancedOpts startState (texEntry :: [])
       = processEntries failLib balancedOpts
           (processEntry failLib balancedOpts startState texEntry) []) :=
  ⟨rfl, by decide, by decide, by decide, rfl,
   image_error_isolated failLib balancedOpts startState texEntry [] "boom"
     rfl (by decide) (by decide) (by decide) rfl⟩

/-- Helper: every processed entry appends exactly one output record; a
file record keeps the entry's name unless the format-conversion rename
fires. -/
lemma processEntry_out_shape (lib : SharpLib) (opts : HandlerOpts) (st : LoopState)
    (e : Entry) :
    (e.dir = true ∧ (processEntry lib opts st e).out = st.out ++ [OutEntry.folder e.name]) ∨
    (e.dir = false ∧ ∃ n d, (processEntry lib opts st e).out = st.out ++ [OutEntry.file n d] ∧
      (n = e.name ∨ (opts.format ≠ "png" ∧ strEndsWith e.name ".png" = true ∧
        n = replacePngExt e.name opts.format))) := by
  by_cases hdir : e.dir = true
  · exact Or.inl ⟨hdir, by simp [processEntry, hdir]⟩
  · rw [Bool.not_eq_true] at hdir
    refine Or.inr ⟨hdir, ?_⟩
    by_cases hc : isCriticalFile e.name = true
    · exact ⟨e.name, e.data, by simp [processEntry, hdir, hc], Or.inl rfl⟩
    · rw [Bool.not_eq_true] at hc
      by_cases hs : isSoundFile e.name = true
      · exact ⟨e.name, e.data, by simp [processEntry, hdir, hc, hs], Or.inl rfl⟩
      · rw [Bool.not_eq_true] at hs
        by_cases hi : isImageFile e.name = true
        · rcases hres : imageTry lib opts e.name e.data with msg | pair
          · exact ⟨e.name, e.data,
              by simp [processEntry, hdir, hc, hs, hi, hres], Or.inl rfl⟩
          · rcases pair with ⟨optimized, hd⟩
            by_cases hfmt : opts.format ≠ "png" ∧ strEndsWith e.name ".png" = true
            · exact ⟨replacePngExt e.name opts.format, optimized,
                by simp [processEntry, hdir, hc, hs, hi, hres, hfmt],
                Or.inr ⟨hfmt.1, hfmt.2, rfl⟩⟩
            · exact ⟨e.name, optimized,
                by simp [processEntry, hdir, hc, hs, hi, hres, hfmt], Or.inl rfl⟩
        · rw [Bool.not_eq_true] at hi
          exact ⟨e.name, e.data, by simp [processEntry, hdir, hc, hs, hi], Or.inl rfl⟩

/-- Helper: the output archive only ever grows. -/
lemma processEntry_out_append (lib : SharpLib) (opts : HandlerOpts) (st : LoopState)
    (e : Entry) :
    ∃ t, (processEntry lib opts st e).out = st.out ++ t := by
  rcases processEntry_out_shape lib opts st e with ⟨_, h⟩ | ⟨_, n, d, h, _⟩
  · exact ⟨[OutEntry.folder e.name], h⟩
  · exact ⟨[OutEntry.file n d], h⟩

/-- Helper: records already written stay in the output archive. -/
lemma processEntries_out_mono (lib : SharpLib) (opts : HandlerOpts) :
    ∀ (entries : List Entry) (st : LoopState) (x : OutEntry),
      x ∈ st.out → x ∈ (processEntries lib opts st entries).out := by
  intro entries
  induction entries with
  | nil => intro st x hx; exact hx
  | cons a tl ih =>
    intro st x hx
    obtain ⟨t, ht⟩ := processEntry_out_append lib opts st a
    have hmem : x ∈ (processEntry lib opts st a).out := by
      rw [ht]; exact List.mem_append_left _ hx
    show x ∈ (processEntries lib opts (processEntry lib opts st a) tl).out
    exact ih _ x hmem

/-- Helper: name preservation for a loop started in any state. -/
lemma names_preserved_aux (lib : SharpLib) (opts : HandlerOpts) :
    ∀ (entries : List Entry) (st : LoopState) (e : Entry), e ∈ entries →
      (e.dir = true → OutEntry.folder e.name ∈ (processEntries lib opts st entries).out) ∧
      (e.dir = false →
        (∃ d, OutEntry.file e.name d ∈ (processEntries lib opts st entries).out) ∨
        (opts.format ≠ "png" ∧ strEndsWith e.name ".png" = true ∧
          ∃ d, OutEntry.file (replacePngExt e.name opts.format) d
            ∈ (processEntries lib opts st entries).out)) := by
  intro entries
  induction entries with
  | nil => intro st e he; exact absurd he (List.not_mem_nil e)
  | cons a tl ih =>
    intro st e he
    rcases List.mem_cons.mp he with heq | hmem
    · subst heq
      rcases processEntry_out_shape lib opts st e with ⟨hdir, hout⟩ | ⟨hdir, n, d, hout, hname⟩
      · constructor
        · intro _
          have hx : OutEntry.folder e.name ∈ (processEntry lib opts st e).out := by
            rw [hout]; exact List.mem_append_right _ (by simp)
          exact processEntries_out_mono lib opts tl _ _ hx
        · intro hfalse; rw [hdir] at hfalse; simp at hfalse
      · constructor
        · intro htrue; rw [hdir] at htrue; simp at htrue
        · intro _
          have hx : OutEntry.file n d ∈ (processEntry lib opts st e).out := by
            rw [hout]; exact List.mem_append_right _ (by simp)
          have hx2 := processEntries_out_mono lib opts tl _ _ hx
          rcases hname with rfl | ⟨hf, hp, rfl⟩
          · exact Or.inl ⟨d, hx2⟩
          · exact Or.inr ⟨hf, hp, d, hx2⟩
    · exact ih (processEntry lib opts st a) e hmem

/-- Claim C7: every non-directory entry name of the input appears in the
output archive, either unchanged or (only when the output format differs
from png and the name ends in `.png`) renamed to the new extension; every
directory entry is preserved as a directory. -/
theorem archive_names_preserved (lib : SharpLib) (opts : HandlerOpts)
    (entries : List Entry) (e : Entry) (he : e ∈ entries) :
    (e.dir = true → OutEntry.folder e.name ∈ (processAll lib opts entries).out) ∧
    (e.dir = false →
      (∃ d, OutEntry.file e.name d ∈ (processAll lib opts entries).out) ∨
      (opts.format ≠ "png" ∧ strEndsWith e.name ".png" = true ∧
        ∃ d, OutEntry.file (replacePngExt e.name opts.format) d
          ∈ (processAll lib opts entries).out)) :=
  names_preserved_aux lib opts entries ⟨Stats.start, []⟩ e he

/-- Witness for C7: the single entry `tex.png` survives processing. -/
theorem archive_names_preserved_witness :
    texEntry ∈ [texEntry] ∧
    ((texEntry.dir = true →
        OutEntry.folder texEntry.name ∈ (processAll failLib balancedOpts [texEntry]).out) ∧
     (texEntry.dir = false →
       (∃ d, OutEntry.file texEntry.name d
          ∈ (processAll failLib balancedOpts [texEntry]).out) ∨
       (balancedOpts.format ≠ "png" ∧ strEndsWith texEntry.name ".png" = true ∧
         ∃ d, OutEntry.file (replacePngExt texEntry.name balancedOpts.format) d
           ∈ (processAll failLib balancedOpts [texEntry]).out))) :=
  ⟨List.mem_singleton.mpr rfl,
   archive_names_preserved failLib balancedOpts [texEntry] texEntry
     (List.mem_singleton.mpr rfl)⟩

/-- Total byte length of the non-directory input entries. -/
def sumInputSizes (entries : List Entry) : Nat :=
  ((entries.filter fun e => !e.dir).map fun e => e.data.length).sum

/-- Total byte length of the file records written to the output archive
(directories contribute nothing). -/
def sumOutSizes (out : List OutEntry) : Nat :=
  (out.map fun o => match o with
    | OutEntry.folder _ => 0
    | OutEntry.file _ d => d.length).sum

/-- Helper: `sumOutSizes` distributes over append. -/
lemma sumOutSizes_append (a b : List OutEntry) :
    sumOutSizes (a ++ b) = sumOutSizes a + sumOutSizes b := by
  simp [sumOutSizes]

/-- Helper: `sumInputSizes` on a cons. -/
lemma sumInputSizes_cons (a : Entry) (tl : List Entry) :
    sumInputSizes (a :: tl)
      = (if a.dir = true then 0 else a.data.length) + sumInputSizes tl := by
  by_cases hdir : a.dir = true <;> simp [sumInputSizes, List.filter_cons, hdir]

/-- Helper: one loop iteration adds the entry's size to `originalSize`
(nothing for directories) and keeps `optimizedSize` in step with the
bytes written to the output. -/
lemma processEntry_sizes (lib : SharpLib) (opts : HandlerOpts) (st : LoopState) (e : Entry) :
    (processEntry lib opts st e).stats.originalSize
        = st.stats.originalSize + (if e.dir = true then 0 else e.data.length) ∧
    (processEntry lib opts st e).stats.optimizedSize + sumOutSizes st.out
        = st.stats.optimizedSize + sumOutSizes (processEntry lib opts st e).out := by
  by_cases hdir : e.dir = true
  · simp [processEntry, hdir, sumOutSizes_append, sumOutSizes]
  · rw [Bool.not_eq_true] at hdir
    by_cases hc : isCriticalFile e.name = true
    · constructor <;>
        simp [processEntry, hdir, hc, sumOutSizes_append, sumOutSizes] <;> omega
    · rw [Bool.not_eq_true] at hc
      by_cases hs : isSoundFile e.name = true
      · constructor <;>
          simp [processEntry, hdir, hc, hs, sumOutSizes_append, sumOutSizes] <;> omega
      · rw [Bool.not_eq_true] at hs
        by_cases hi : isImageFile e.name = true
        · rcases hres : imageTry lib opts e.name e.data with msg | pair
          · constructor <;>
              simp [processEntry, hdir, hc, hs, hi, hres, sumOutSizes_append,
                sumOutSizes] <;> omega
          · rcases pair with ⟨optimized, hd⟩
            constructor <;>
              simp [processEntry, hdir, hc, hs, hi, hres, sumOutSizes_append,
                sumOutSizes] <;> omega
        · rw [Bool.not_eq_true] at hi
          constructor <;>
            simp [processEntry, hdir, hc, hs, hi, sumOutSizes_append, sumOutSizes] <;> omega

/-- Helper: the size bookkeeping holds for a loop started in any state. -/
lemma processEntries_sizes (lib : SharpLib) (opts : HandlerOpts) :
    ∀ (entries : List Entry) (st : LoopState),
      (processEntries lib opts st entries).stats.originalSize
          = st.stats.originalSize + sumInputSizes entries ∧
      (processEntries lib opts st entries).stats.optimizedSize + sumOutSizes st.out
          = st.stats.optimizedSize + sumOutSizes (processEntries lib opts st entries).out := by
  intro entries
  induction entries with
  | nil => intro st; simp [processEntries, sumInputSizes]
  | cons a tl ih =>
    intro st
    obtain ⟨h1, h2⟩ := processEntry_sizes lib opts st a
    obtain ⟨ih1, ih2⟩ := ih (processEntry lib opts st a)
    constructor
    · show (processEntries lib opts (processEntry lib opts st a) tl).stats.originalSize
          = st.stats.originalSize + sumInputSizes (a :: tl)
      rw [ih1, h1, sumInputSizes_cons]
      omega
    · show (processEntries lib opts (processEntry lib opts st a) tl).stats.optimizedSize
            + sumOutSizes st.out
          = st.stats.optimizedSize
            + sumOutSizes (processEntries lib opts (processEntry lib opts st a) tl).out
      omega

/-- Final statistics fields computed after the whole-archive
serialization (handler lines 322-332). `savedPercent` is modelled as the
exact rational value of the JavaScript expression; the `.toFixed(2)`
decimal formatting of the transported string is display formatting and
is not modelled. -/
structure FinalStats where
  originalSize : Nat
  optimizedSize : Nat
  finalZipSize : Nat
  savedBytes : ℤ
  savedPercent : ℚ
  targetAchieved : Bool

/-- Computation of the final statistics from the accumulated statistics
and the serialized archive's byte length. -/
def finalize (stats : Stats) (finalSize : Nat) : FinalStats :=
  { originalSize := stats.originalSize
  , optimizedSize := stats.optimizedSize
  , finalZipSize := finalSize
  , savedBytes := (stats.originalSize : ℤ) - (finalSize : ℤ)
  , savedPercent := ((stats.originalSize : ℚ) - (finalSize : ℚ))
      / (stats.originalSize : ℚ) * 100
  , targetAchieved := decide (finalSize ≤ 13 * 1024 * 1024) }

/-- Claim C8: after the loop, `originalSize` is the total size of the
non-directory input entries, `optimizedSize` is the total size of the
bytes written to the output (before container compression), and
`savedPercent` equals (originalSize − finalZipSize) / originalSize × 100
with `finalZipSize` the length of the serialized output archive. -/
theorem stats_consistency (lib : SharpLib) (opts : HandlerOpts) (entries : List Entry)
    (serializeZip : List OutEntry → List Nat) :
    (processAll lib opts entries).stats.originalSize = sumInputSizes entries ∧
    (processAll lib opts entries).stats.optimizedSize
      = sumOutSizes (processAll lib opts entries).out ∧
    (finalize (processAll lib opts entries).stats
        (serializeZip (processAll lib opts entries).out).length).savedPercent
      = (((processAll lib opts entries).stats.originalSize : ℚ)
          - ((serializeZip (processAll lib opts entries).out).length : ℚ))
        / ((processAll lib opts entries).stats.originalSize : ℚ) * 100 := by
  obtain ⟨h1, h2⟩ := processEntries_sizes lib opts entries ⟨Stats.start, []⟩
  refine ⟨?_, ?_, rfl⟩
  · simpa [processAll, Stats.start] using h1
  · simpa [processAll, Stats.start, sumOutSizes] using h2
